import Mathlib

/-!
Grbl (LGT8F328P port): EEPROM block codec and reset sequencer.

A shallow embedding of `grbl/eeprom.c` and of `main()` in `grbl/main.c`.

Conventions of the embedding

* `unsigned char` and the 8-bit I/O registers are `Nat` reduced `% 256`;
  `unsigned int` is the 16-bit AVR type, a `Nat` reduced `% 65536`.
* A `char` buffer reached through a pointer is a function `Nat → Nat` from the
  offset to the byte stored there (the byte's representation, `0 .. 255`), together
  with the current offset of the pointer.
* Stateful code threads the state explicitly.
-/

namespace Grbl

/-! ## eeprom.c : the device -/

/-- Bit number of the read strobe in `EECR` (device header `<avr/io.h>`). -/
def EERE : Nat := 0

/-- Bit number of the program strobe in `EECR` (device header `<avr/io.h>`); the
source writes it as the literal `0x02`. -/
def EEPE : Nat := 1

/-- The EEPROM as the code sees it: the address, data and control registers, the
status register of the CPU, and the array of cells. -/
structure Eeprom where
  EEARL : Nat
  EEARH : Nat
  EEDR : Nat
  EECR : Nat
  SREG : Nat
  cells : Nat → Nat

/-- The cell address selected by the register pair `EEARH:EEARL`. -/
def Eeprom.EEAR (d : Eeprom) : Nat := d.EEARH * 256 + d.EEARL

/-- Hardware reaction to the read strobe: the selected cell is latched into `EEDR`. -/
def read_strobe (d : Eeprom) : Eeprom :=
  { d with EEDR := d.cells d.EEAR }

/-- Hardware reaction to the program strobe, in the store model with immediately
committed writes: the selected cell takes the value of `EEDR`. -/
def program_strobe (d : Eeprom) : Eeprom :=
  { d with cells := Function.update d.cells d.EEAR d.EEDR }

/-- The function `eeprom_get_char` of eeprom.c, lines 49-58. -/
def eeprom_get_char (d : Eeprom) (addr : Nat) : Nat × Eeprom :=
  let d := { d with EEARL := addr % 256 }
  let d := { d with EEARH := (addr >>> 8) % 256 }
  let d := read_strobe { d with EECR := (d.EECR ||| (1 <<< EERE)) % 256 }
  (d.EEDR, d)

/-- The function `eeprom_put_char` of eeprom.c, lines 77-88. `cli()` clears the
global interrupt flag, bit 7 of `SREG`. -/
def eeprom_put_char (d : Eeprom) (addr : Nat) (new_value : Nat) : Eeprom :=
  let d := { d with EEARL := addr % 256 }
  let d := { d with EEARH := (addr >>> 8) % 256 }
  let d := { d with EEDR := new_value % 256 }
  let __bk_sreg := d.SREG
  let d := { d with SREG := d.SREG &&& 0x7F }
  let d := { d with EECR := 0x04 }
  let d := program_strobe { d with EECR := 0x02 }
  { d with SREG := __bk_sreg }

/-! ## eeprom.c : the block codec -/

/-- The `for` loop of `memcpy_to_eeprom_with_checksum`, lines 94-98. The pointer
`source` is the buffer `source` at offset `p`. Returns the device, `destination`
and `checksum` on leaving the loop. -/
def memcpy_to_eeprom_with_checksum_loop (source : Nat → Nat) :
    Nat → Eeprom → Nat → Nat → Nat → Eeprom × Nat × Nat
  | 0, d, destination, _, checksum => (d, destination, checksum)
  | size + 1, d, destination, p, checksum =>
    let checksum := (if checksum <<< 1 ≠ 0 ∨ checksum >>> 7 ≠ 0 then 1 else 0) % 256
    let checksum := (checksum + source p) % 256
    let d := eeprom_put_char d destination (source p)
    memcpy_to_eeprom_with_checksum_loop source size d ((destination + 1) % 65536) (p + 1)
      checksum

/-- The function `memcpy_to_eeprom_with_checksum` of eeprom.c, lines 92-100. -/
def memcpy_to_eeprom_with_checksum (d : Eeprom) (destination : Nat) (source : Nat → Nat)
    (size : Nat) : Eeprom :=
  let checksum := 0
  let r := memcpy_to_eeprom_with_checksum_loop source size d destination 0 checksum
  eeprom_put_char r.1 r.2.1 r.2.2

/-- The `for` loop of `memcpy_from_eeprom_with_checksum`, lines 104-109. The pointer
`destination` is the buffer `destination` at offset `q`. Returns the device, the
buffer, `source` and `checksum` on leaving the loop. -/
def memcpy_from_eeprom_with_checksum_loop :
    Nat → Eeprom → (Nat → Nat) → Nat → Nat → Nat → Eeprom × (Nat → Nat) × Nat × Nat
  | 0, d, destination, _, source, checksum => (d, destination, source, checksum)
  | size + 1, d, destination, q, source, checksum =>
    let r := eeprom_get_char d source
    let data := r.1
    let d := r.2
    let checksum := (if checksum <<< 1 ≠ 0 ∨ checksum >>> 7 ≠ 0 then 1 else 0) % 256
    let checksum := (checksum + data) % 256
    let destination := Function.update destination q data
    memcpy_from_eeprom_with_checksum_loop size d destination (q + 1) ((source + 1) % 65536)
      checksum

/-- The function `memcpy_from_eeprom_with_checksum` of eeprom.c, lines 102-111: the
`int` result, the destination buffer and the device. -/
def memcpy_from_eeprom_with_checksum (d : Eeprom) (destination : Nat → Nat) (source : Nat)
    (size : Nat) : Nat × (Nat → Nat) × Eeprom :=
  let r := memcpy_from_eeprom_with_checksum_loop size d destination 0 source 0
  let g := eeprom_get_char r.1 r.2.2.1
  ((if r.2.2.2 = g.1 then 1 else 0), r.2.1, g.2)

/-- A buffer holding the bytes of a list, zero beyond it. -/
def buf (l : List Nat) : Nat → Nat := fun i => l.getD i 0

/-- A blank device: all registers and cells zero. -/
def blank : Eeprom := ⟨0, 0, 0, 0, 0, fun _ => 0⟩

/-- The checksum the loop of lines 93-98 (and of lines 103-109) accumulates over
`size` bytes of `source` from offset `p`, starting from `checksum`. -/
def checksum_acc (source : Nat → Nat) : Nat → Nat → Nat → Nat
  | 0, _, checksum => checksum
  | size + 1, p, checksum =>
    let checksum := (if checksum <<< 1 ≠ 0 ∨ checksum >>> 7 ≠ 0 then 1 else 0) % 256
    let checksum := (checksum + source p) % 256
    checksum_acc source size (p + 1) checksum

/-- The checksum of a block: the accumulation of the code over the payload, seeded
with zero as on line 93. -/
def block_checksum (source : Nat → Nat) (size : Nat) : Nat :=
  checksum_acc source size 0 0

/-- The checksum seed and rule as the specification words them: the 8-bit left
rotation by one position, with wraparound. -/
def spec_rotate_left_1 (c : Nat) : Nat := ((c <<< 1) ||| (c >>> 7)) % 256

/-- The checksum rule of the specification: `checksum = 0; for each payload byte b in
order: checksum = rotate_left_1(checksum) + b (mod 256)`. -/
def spec_checksum (payload : List Nat) : Nat :=
  payload.foldl (fun checksum b => (spec_rotate_left_1 checksum + b) % 256) 0

/-- The device with one cell overwritten behind the back of the code. -/
def corrupt (d : Eeprom) (addr v : Nat) : Eeprom :=
  { d with cells := Function.update d.cells addr v }

/-! ## main.c : the state -/

/-- The build configuration and the constants `main()` takes from headers that are
not among the sources (config.h, system.h, settings.h): the two conditional-compilation
switches and the values of the mode and flag constants. -/
structure Config where
  FORCE_INITIALIZATION_ALARM : Bool
  HOMING_INIT_LOCK : Bool
  STATE_ALARM : Nat
  STATE_IDLE : Nat
  BITFLAG_HOMING_ENABLE : Nat

/-- Modelled from the spec: `DEFAULT_FEED_OVERRIDE` is defined in config.h, which is
not among the sources; the spec gives the default as 100 percent, as does the comment
on line 253. -/
def DEFAULT_FEED_OVERRIDE : Nat := 100

/-- Modelled from the spec: `DEFAULT_RAPID_OVERRIDE` is defined in config.h, which is
not among the sources; the spec gives the default as 100 percent, as does the comment
on line 254. -/
def DEFAULT_RAPID_OVERRIDE : Nat := 100

/-- Modelled from the spec: `DEFAULT_SPINDLE_SPEED_OVERRIDE` is defined in config.h,
which is not among the sources; the spec gives the default as 100 percent, as does the
comment on line 255. -/
def DEFAULT_SPINDLE_SPEED_OVERRIDE : Nat := 100

/-- Modelled from the spec: `bit_istrue` is declared in nuts_bolts.h, which is not among
the sources; a flag is set in a flag byte when the byte masked with the flag is not
zero. -/
def bit_istrue (x mask : Nat) : Bool := (x &&& mask) != 0

/-- The struct `system_t` (declared in system.h, not among the sources): the members
`main()` names, and the remaining members in declaration order. -/
structure system_t where
  state : Nat
  f_override : Nat
  r_override : Nat
  spindle_speed_ovr : Nat
  others : List Nat

/-- The globals of main.c, the flag byte `settings.flags` that `main()` reads, and
`ext`: everything else the collaborators act on (their private state, the hardware). -/
structure Globals (W : Type) where
  sys : system_t
  sys_position : List Int
  sys_probe_position : List Int
  sys_probe_state : Nat
  sys_rt_exec_state : Nat
  sys_rt_exec_alarm : Nat
  sys_rt_exec_motion_override : Nat
  sys_rt_exec_accessory_override : Nat
  settings_flags : Nat
  ext : W

/-- The collaborator entry points `main()` calls. -/
inductive Call
  | serial_init
  | settings_init
  | stepper_init
  | system_init
  | serial_reset_read_buffer
  | gc_init
  | spindle_init
  | coolant_init
  | limits_init
  | probe_init
  | plan_reset
  | st_reset
  | plan_sync_position
  | gc_sync_position
  | report_init_message
  | protocol_main_loop
  deriving DecidableEq

/-- The behaviour of the code that is called but not defined in main.c: `hw_init` is
the effect of the register writes of `init()` on the hardware, `effect c` what the
entry point `c` does to the state before it returns, and `protocol_main_loop` the state
in which the main loop returns, or `none` when it never returns. -/
structure Collaborators (W : Type) where
  hw_init : W → W
  effect : Call → Globals W → Globals W
  protocol_main_loop : Globals W → Option (Globals W)

/-- The state of a run: the globals and the calls made so far, oldest first. -/
structure Machine (W : Type) where
  g : Globals W
  trace : List Call

/-- A call of a collaborator entry point that returns. -/
def call {W : Type} (E : Collaborators W) (c : Call) (m : Machine W) : Machine W :=
  { g := E.effect c m.g, trace := m.trace ++ [c] }

/-! ## main.c : the code -/

/-- The function `init()` of main.c, lines 40-212: writes to the EEPROM-size, clock,
timer, ADC and USART registers only, all of them part of `ext`. -/
def init {W : Type} (E : Collaborators W) (m : Machine W) : Machine W :=
  { m with g := { m.g with ext := E.hw_init m.g.ext } }

/-- The statement `memset(&sys, 0, sizeof(system_t))`. -/
def memset_sys (sys : system_t) : system_t :=
  { state := 0, f_override := 0, r_override := 0, spindle_speed_ovr := 0,
    others := List.replicate sys.others.length 0 }

/-- Lines 216-243 of `main()`: power-up initialisation and the choice of the initial
mode. -/
def startup {W : Type} (cfg : Config) (E : Collaborators W) (m : Machine W) : Machine W :=
  let m := init E m
  let m := call E Call.serial_init m
  let m := call E Call.settings_init m
  let m := call E Call.stepper_init m
  let m := call E Call.system_init m
  let m := { m with g := { m.g with
    sys_position := List.replicate m.g.sys_position.length 0 } }
  let m := { m with g := { m.g with sys := { m.g.sys with
    state := if cfg.FORCE_INITIALIZATION_ALARM then cfg.STATE_ALARM else cfg.STATE_IDLE } } }
  let m :=
    if cfg.HOMING_INIT_LOCK then
      if bit_istrue m.g.settings_flags cfg.BITFLAG_HOMING_ENABLE then
        { m with g := { m.g with sys := { m.g.sys with state := cfg.STATE_ALARM } } }
      else m
    else m
  m

/-- Lines 249-261 of `main()`: the reset of the system variables. -/
def reset_system_variables {W : Type} (g : Globals W) : Globals W :=
  let prior_state := g.sys.state
  let g := { g with sys := memset_sys g.sys }
  let g := { g with sys := { g.sys with state := prior_state } }
  let g := { g with sys := { g.sys with f_override := DEFAULT_FEED_OVERRIDE } }
  let g := { g with sys := { g.sys with r_override := DEFAULT_RAPID_OVERRIDE } }
  let g := { g with sys := { g.sys with spindle_speed_ovr := DEFAULT_SPINDLE_SPEED_OVERRIDE } }
  let g := { g with sys_probe_position := List.replicate g.sys_probe_position.length 0 }
  let g := { g with sys_probe_state := 0 }
  let g := { g with sys_rt_exec_state := 0 }
  let g := { g with sys_rt_exec_alarm := 0 }
  let g := { g with sys_rt_exec_motion_override := 0 }
  let g := { g with sys_rt_exec_accessory_override := 0 }
  g

/-- Lines 249-281 of `main()`: the body of the reset loop up to and including the entry
into `protocol_main_loop`. -/
def reset_cycle {W : Type} (E : Collaborators W) (m : Machine W) : Machine W :=
  let m := { m with g := reset_system_variables m.g }
  let m := call E Call.serial_reset_read_buffer m
  let m := call E Call.gc_init m
  let m := call E Call.spindle_init m
  let m := call E Call.coolant_init m
  let m := call E Call.limits_init m
  let m := call E Call.probe_init m
  let m := call E Call.plan_reset m
  let m := call E Call.st_reset m
  let m := call E Call.plan_sync_position m
  let m := call E Call.gc_sync_position m
  let m := call E Call.report_init_message m
  { m with trace := m.trace ++ [Call.protocol_main_loop] }

/-- The loop `for(;;)` of lines 247-283, observed for at most `n` iterations: the body
runs again when `protocol_main_loop` returns, and the run stays inside
`protocol_main_loop` when it does not. -/
def reset_loop {W : Type} (E : Collaborators W) : Nat → Machine W → Machine W
  | 0, m => m
  | n + 1, m =>
    let m := reset_cycle E m
    match E.protocol_main_loop m.g with
    | none => m
    | some g => reset_loop E n { m with g := g }

/-- The function `main()` of main.c, lines 214-285, observed for at most `n` iterations
of its loop. -/
def main {W : Type} (cfg : Config) (E : Collaborators W) (n : Nat) (m : Machine W) :
    Machine W :=
  reset_loop E n (startup cfg E m)

/-- The calls of one reset cycle, in the order of lines 264-281. -/
def reset_order : List Call :=
  [Call.serial_reset_read_buffer, Call.gc_init, Call.spindle_init, Call.coolant_init,
   Call.limits_init, Call.probe_init, Call.plan_reset, Call.st_reset,
   Call.plan_sync_position, Call.gc_sync_position, Call.report_init_message,
   Call.protocol_main_loop]

/-- The order of collaborator calls as the specification lists it, the settings load
second. -/
def spec_call_order : List Call :=
  [Call.serial_reset_read_buffer, Call.settings_init, Call.gc_init, Call.spindle_init,
   Call.coolant_init, Call.limits_init, Call.probe_init, Call.plan_reset, Call.st_reset,
   Call.plan_sync_position, Call.gc_sync_position, Call.report_init_message,
   Call.protocol_main_loop]

/-- Collaborators without effect, whose main loop never returns. -/
def idle_collaborators : Collaborators Unit :=
  { hw_init := fun w => w, effect := fun _ g => g, protocol_main_loop := fun _ => none }

/-- Collaborators without effect, whose main loop always returns at once. -/
def aborting_collaborators : Collaborators Unit :=
  { hw_init := fun w => w, effect := fun _ g => g, protocol_main_loop := fun g => some g }

/-- A machine at power-up with all variables zero and three axes. -/
def power_up : Machine Unit :=
  { g := { sys := ⟨0, 0, 0, 0, [0, 0, 0]⟩, sys_position := [0, 0, 0],
           sys_probe_position := [0, 0, 0], sys_probe_state := 0, sys_rt_exec_state := 0,
           sys_rt_exec_alarm := 0, sys_rt_exec_motion_override := 0,
           sys_rt_exec_accessory_override := 0, settings_flags := 0, ext := () },
    trace := [] }

/-- A build with neither lock-out switch, with the mode and flag values of Grbl. -/
def plain_config : Config :=
  { FORCE_INITIALIZATION_ALARM := false, HOMING_INIT_LOCK := false, STATE_ALARM := 1,
    STATE_IDLE := 0, BITFLAG_HOMING_ENABLE := 16 }

/-- A build with the require-homing switch, with the mode and flag values of Grbl. -/
def homing_config : Config :=
  { FORCE_INITIALIZATION_ALARM := false, HOMING_INIT_LOCK := true, STATE_ALARM := 1,
    STATE_IDLE := 0, BITFLAG_HOMING_ENABLE := 16 }

/-- Collaborators whose settings load finds homing enabled; no other effect, and a main
loop that never returns. -/
def homing_collaborators : Collaborators Unit :=
  { hw_init := fun w => w,
    effect := fun c g => if c = Call.settings_init then { g with settings_flags := 16 } else g,
    protocol_main_loop := fun _ => none }

/-! ## eeprom.c : lemmas -/

theorem EEAR_of_addr (addr : Nat) : (addr >>> 8) % 256 * 256 + addr % 256 = addr % 65536 := by
  rw [Nat.shiftRight_eq_div_pow]
  omega

theorem eeprom_put_char_cells (d : Eeprom) (addr v : Nat) :
    (eeprom_put_char d addr v).cells = Function.update d.cells (addr % 65536) (v % 256) := by
  simp [eeprom_put_char, program_strobe, Eeprom.EEAR, EEAR_of_addr]

theorem eeprom_get_char_val (d : Eeprom) (addr : Nat) :
    (eeprom_get_char d addr).1 = d.cells (addr % 65536) := by
  simp [eeprom_get_char, read_strobe, Eeprom.EEAR, EEAR_of_addr]

theorem eeprom_get_char_cells (d : Eeprom) (addr : Nat) :
    (eeprom_get_char d addr).2.cells = d.cells := by
  simp [eeprom_get_char, read_strobe]

theorem checksum_acc_lt (source : Nat → Nat) (size p c : Nat) (hc : c < 256) :
    checksum_acc source size p c < 256 := by
  induction size generalizing p c with
  | zero => simpa [checksum_acc] using hc
  | succ n ih =>
    simp only [checksum_acc]
    exact ih _ _ (Nat.mod_lt _ (by decide))

theorem checksum_acc_congr (f g : Nat → Nat) (size p q c : Nat)
    (h : ∀ i, i < size → f (p + i) = g (q + i)) :
    checksum_acc f size p c = checksum_acc g size q c := by
  induction size generalizing p q c with
  | zero => simp [checksum_acc]
  | succ n ih =>
    simp only [checksum_acc]
    have h0 : f p = g q := by simpa using h 0 (Nat.succ_pos n)
    rw [h0]
    apply ih
    intro i hi
    have := h (i + 1) (by omega)
    rw [show p + 1 + i = p + (i + 1) by omega, show q + 1 + i = q + (i + 1) by omega]
    exact this

/-- The write loop: accumulated checksum, final address, frame and content. -/
theorem to_loop_spec (source : Nat → Nat) (size : Nat) (d : Eeprom) (A p c : Nat) :
    (memcpy_to_eeprom_with_checksum_loop source size d A p c).2.2 = checksum_acc source size p c ∧
    (memcpy_to_eeprom_with_checksum_loop source size d A p c).2.1 % 65536 = (A + size) % 65536 ∧
    (∀ x, (∀ i, i < size → x ≠ (A + i) % 65536) →
      (memcpy_to_eeprom_with_checksum_loop source size d A p c).1.cells x = d.cells x) ∧
    (size ≤ 65536 → ∀ i, i < size →
      (memcpy_to_eeprom_with_checksum_loop source size d A p c).1.cells ((A + i) % 65536)
        = source (p + i) % 256) := by
  induction size generalizing d A p c with
  | zero => simp [memcpy_to_eeprom_with_checksum_loop, checksum_acc]
  | succ n ih =>
    simp only [memcpy_to_eeprom_with_checksum_loop, checksum_acc]
    obtain ⟨h1, h2, h3, h4⟩ := ih (eeprom_put_char d A (source p)) ((A + 1) % 65536) (p + 1)
      (((if c <<< 1 ≠ 0 ∨ c >>> 7 ≠ 0 then 1 else 0) % 256 + source p) % 256)
    refine ⟨h1, ?_, ?_, ?_⟩
    · rw [h2]; omega
    · intro x hx
      rw [h3 x]
      · rw [eeprom_put_char_cells, Function.update_noteq]
        have := hx 0 (Nat.succ_pos n)
        simpa using this
      · intro i hi
        have := hx (i + 1) (by omega)
        omega
    · intro hn i hi
      rcases Nat.eq_zero_or_pos i with h0 | hpos
      · subst h0
        rw [h3]
        · rw [eeprom_put_char_cells]; simp
        · intro j hj; omega
      · have := h4 (by omega) (i - 1) (by omega)
        rw [show ((A + 1) % 65536 + (i - 1)) % 65536 = (A + i) % 65536 by omega,
          show p + 1 + (i - 1) = p + i by omega] at this
        exact this

/-- What a block write leaves in the cells. -/
theorem to_spec (d : Eeprom) (A : Nat) (source : Nat → Nat) (size : Nat) (hs : size < 65536) :
    (∀ i, i < size →
      (memcpy_to_eeprom_with_checksum d A source size).cells ((A + i) % 65536)
        = source i % 256) ∧
    (memcpy_to_eeprom_with_checksum d A source size).cells ((A + size) % 65536)
      = block_checksum source size ∧
    (∀ x, (∀ i, i ≤ size → x ≠ (A + i) % 65536) →
      (memcpy_to_eeprom_with_checksum d A source size).cells x = d.cells x) := by
  obtain ⟨h1, h2, h3, h4⟩ := to_loop_spec source size d A 0 0
  have hlt : block_checksum source size < 256 := checksum_acc_lt _ _ _ _ (by decide)
  have hc : (memcpy_to_eeprom_with_checksum d A source size).cells
      = Function.update (memcpy_to_eeprom_with_checksum_loop source size d A 0 0).1.cells
          ((A + size) % 65536) (block_checksum source size) := by
    simp only [memcpy_to_eeprom_with_checksum]
    rw [eeprom_put_char_cells, h1, h2]
    simp only [block_checksum] at hlt ⊢
    rw [Nat.mod_eq_of_lt hlt]
  rw [hc]
  refine ⟨?_, ?_, ?_⟩
  · intro i hi
    rw [Function.update_noteq (by omega)]
    simpa using h4 (by omega) i hi
  · simp
  · intro x hx
    rw [Function.update_noteq (hx size (le_refl _))]
    exact h3 x (fun i hi => hx i (by omega))

/-- The read loop: cells untouched, final address, accumulated checksum, bytes
delivered and frame of the destination buffer. -/
theorem from_loop_spec (f : Nat → Nat) (size : Nat) (d : Eeprom) (dst : Nat → Nat)
    (q A p c : Nat) (h : ∀ i, i < size → d.cells ((A + i) % 65536) = f (p + i)) :
    (memcpy_from_eeprom_with_checksum_loop size d dst q A c).1.cells = d.cells ∧
    (memcpy_from_eeprom_with_checksum_loop size d dst q A c).2.2.1 % 65536
      = (A + size) % 65536 ∧
    (memcpy_from_eeprom_with_checksum_loop size d dst q A c).2.2.2
      = checksum_acc f size p c ∧
    (∀ i, i < size →
      (memcpy_from_eeprom_with_checksum_loop size d dst q A c).2.1 (q + i) = f (p + i)) ∧
    (∀ j, (j < q ∨ q + size ≤ j) →
      (memcpy_from_eeprom_with_checksum_loop size d dst q A c).2.1 j = dst j) := by
  induction size generalizing d dst q A p c with
  | zero => simp [memcpy_from_eeprom_with_checksum_loop, checksum_acc]
  | succ n ih =>
    simp only [memcpy_from_eeprom_with_checksum_loop, checksum_acc]
    have hdata : (eeprom_get_char d A).1 = f p := by
      rw [eeprom_get_char_val]
      simpa using h 0 (Nat.succ_pos n)
    obtain ⟨h1, h2, h3, h4, h5⟩ := ih (eeprom_get_char d A).2
      (Function.update dst q (eeprom_get_char d A).1) (q + 1) ((A + 1) % 65536) (p + 1)
      (((if c <<< 1 ≠ 0 ∨ c >>> 7 ≠ 0 then 1 else 0) % 256 + (eeprom_get_char d A).1) % 256)
      (by
        intro i hi
        rw [eeprom_get_char_cells]
        have := h (i + 1) (by omega)
        rw [show ((A + 1) % 65536 + i) % 65536 = (A + (i + 1)) % 65536 by omega,
          show p + 1 + i = p + (i + 1) by omega]
        exact this)
    refine ⟨?_, ?_, ?_, ?_, ?_⟩
    · rw [h1, eeprom_get_char_cells]
    · rw [h2]; omega
    · rw [h3, hdata]
    · intro i hi
      rcases Nat.eq_zero_or_pos i with h0 | hpos
      · subst h0
        rw [h5 _ (Or.inl (by omega))]
        simp [hdata]
      · have := h4 (i - 1) (by omega)
        rw [show q + 1 + (i - 1) = q + i by omega, show p + 1 + (i - 1) = p + i by omega] at this
        exact this
    · intro j hj
      rw [h5 j (by omega), Function.update_noteq (by omega)]

/-- What a block read returns from a device whose cells hold the bytes `f` at the block
addresses and `t` at the checksum address. -/
theorem from_spec (f : Nat → Nat) (d : Eeprom) (dst : Nat → Nat) (A size t : Nat)
    (h : ∀ i, i < size → d.cells ((A + i) % 65536) = f i)
    (ht : d.cells ((A + size) % 65536) = t) :
    (memcpy_from_eeprom_with_checksum d dst A size).1
      = (if block_checksum f size = t then 1 else 0) ∧
    (∀ i, i < size → (memcpy_from_eeprom_with_checksum d dst A size).2.1 i = f i) ∧
    (∀ j, size ≤ j → (memcpy_from_eeprom_with_checksum d dst A size).2.1 j = dst j) ∧
    (memcpy_from_eeprom_with_checksum d dst A size).2.2.cells = d.cells := by
  obtain ⟨h1, h2, h3, h4, h5⟩ := from_loop_spec f size d dst 0 A 0 0
    (by intro i hi; simpa using h i hi)
  simp only [memcpy_from_eeprom_with_checksum]
  refine ⟨?_, ?_, ?_, ?_⟩
  · rw [eeprom_get_char_val, h1, h2, h3, ht]; rfl
  · intro i hi
    simpa using h4 i hi
  · intro j hj
    exact h5 j (Or.inr (by omega))
  · rw [eeprom_get_char_cells, h1]

/-! ## eeprom.c : the claims -/

/-- C1. Round trip of the block codec: on a store with immediately committed writes,
for every device state, every address `A` (also when `A + N` wraps past the 16-bit
range) and every payload `src` of `N` bytes with `0 ≤ N ≤ 255`, reading the block back
after writing it returns 1 and leaves `dst[0..N)` equal to `src[0..N)`. -/
theorem C1_round_trip (d : Eeprom) (A : Nat) (src dst : Nat → Nat) (N : Nat)
    (hN : N ≤ 255) (hsrc : ∀ i, i < N → src i < 256) :
    (memcpy_from_eeprom_with_checksum (memcpy_to_eeprom_with_checksum d A src N) dst A N).1
      = 1 ∧
    ∀ i, i < N →
      (memcpy_from_eeprom_with_checksum (memcpy_to_eeprom_with_checksum d A src N) dst A N).2.1
        i = src i := by
  obtain ⟨w1, w2, _⟩ := to_spec d A src N (by omega)
  obtain ⟨r1, r2, _, _⟩ := from_spec src (memcpy_to_eeprom_with_checksum d A src N) dst A N
    (block_checksum src N)
    (by intro i hi; rw [w1 i hi, Nat.mod_eq_of_lt (hsrc i hi)]) w2
  exact ⟨by rw [r1]; simp, r2⟩

/-- Witness of C1: three bytes written at address 65534, so that the block wraps past
the end of the 16-bit address range. -/
theorem C1_round_trip_witness :
    (memcpy_from_eeprom_with_checksum
      (memcpy_to_eeprom_with_checksum blank 65534 (buf [0x10, 0x20, 0x30]) 3)
      (fun _ => 0) 65534 3).1 = 1 ∧
    ∀ i, i < 3 →
      (memcpy_from_eeprom_with_checksum
        (memcpy_to_eeprom_with_checksum blank 65534 (buf [0x10, 0x20, 0x30]) 3)
        (fun _ => 0) 65534 3).2.1 i = buf [0x10, 0x20, 0x30] i :=
  C1_round_trip blank 65534 (buf [0x10, 0x20, 0x30]) (fun _ => 0) 3 (by decide) (by decide)

/-- C2. The checksum byte the code stores is not the one of the rotate-and-add rule:
for the payload `[0x10, 0x20, 0x30]` written at address 100, on every device, the byte
at address 103 is `0x31`, where the rule of the specification gives `0xB0`. -/
theorem C2_checksum_rule_fails (d : Eeprom) :
    (memcpy_to_eeprom_with_checksum d 100 (buf [0x10, 0x20, 0x30]) 3).cells 103 = 0x31 ∧
    spec_checksum [0x10, 0x20, 0x30] = 0xB0 ∧
    (memcpy_to_eeprom_with_checksum d 100 (buf [0x10, 0x20, 0x30]) 3).cells 103
      ≠ spec_checksum [0x10, 0x20, 0x30] := by
  obtain ⟨_, w2, _⟩ := to_spec d 100 (buf [0x10, 0x20, 0x30]) 3 (by decide)
  have hc : block_checksum (buf [0x10, 0x20, 0x30]) 3 = 0x31 := by decide
  have hs : spec_checksum [0x10, 0x20, 0x30] = 0xB0 := by decide
  rw [hc] at w2
  have h103 : (100 + 3) % 65536 = 103 := by decide
  rw [h103] at w2
  refine ⟨w2, hs, ?_⟩
  rw [w2, hs]
  decide

/-- C3. A payload byte none of whose single-bit corruptions is detected: after the
payload `[0x10, 0x20, 0x30]` is written at address 100, on every device, flipping any
one of the eight bits of the cell at address 100 changes that cell and still lets the
block read return 1; under the rule of the specification every one of these flips
changes the checksum. -/
theorem C3_bit_flip_undetected (d : Eeprom) (dst : Nat → Nat) (k : Fin 8) :
    (memcpy_to_eeprom_with_checksum d 100 (buf [0x10, 0x20, 0x30]) 3).cells 100 = 0x10 ∧
    0x10 ^^^ (1 <<< k.val) ≠ 0x10 ∧
    (memcpy_from_eeprom_with_checksum
      (corrupt (memcpy_to_eeprom_with_checksum d 100 (buf [0x10, 0x20, 0x30]) 3) 100
        (0x10 ^^^ (1 <<< k.val)))
      dst 100 3).1 = 1 ∧
    spec_checksum [0x10 ^^^ (1 <<< k.val), 0x20, 0x30] ≠ spec_checksum [0x10, 0x20, 0x30] := by
  have f1 : ∀ j : Fin 8, 0x10 ^^^ (1 <<< j.val) ≠ 0x10 := by decide
  have f2 : ∀ j : Fin 8, block_checksum (buf [0x10 ^^^ (1 <<< j.val), 0x20, 0x30]) 3 = 0x31 := by
    decide
  have f3 : ∀ j : Fin 8,
      spec_checksum [0x10 ^^^ (1 <<< j.val), 0x20, 0x30] ≠ spec_checksum [0x10, 0x20, 0x30] := by
    decide
  obtain ⟨w1, w2, _⟩ := to_spec d 100 (buf [0x10, 0x20, 0x30]) 3 (by decide)
  have c0 := w1 0 (by decide)
  have c1 := w1 1 (by decide)
  have c2 := w1 2 (by decide)
  have a0 : (100 + 0) % 65536 = 100 := by decide
  have a1 : (100 + 1) % 65536 = 101 := by decide
  have a2 : (100 + 2) % 65536 = 102 := by decide
  have a3 : (100 + 3) % 65536 = 103 := by decide
  have b0 : buf [0x10, 0x20, 0x30] 0 % 256 = 0x10 := by decide
  have b1 : buf [0x10, 0x20, 0x30] 1 % 256 = 0x20 := by decide
  have b2 : buf [0x10, 0x20, 0x30] 2 % 256 = 0x30 := by decide
  have hc : block_checksum (buf [0x10, 0x20, 0x30]) 3 = 0x31 := by decide
  rw [a0, b0] at c0
  rw [a1, b1] at c1
  rw [a2, b2] at c2
  rw [a3, hc] at w2
  obtain ⟨r1, _, _, _⟩ := from_spec (buf [0x10 ^^^ (1 <<< k.val), 0x20, 0x30])
    (corrupt (memcpy_to_eeprom_with_checksum d 100 (buf [0x10, 0x20, 0x30]) 3) 100
      (0x10 ^^^ (1 <<< k.val))) dst 100 3 0x31
    (by
      intro i hi
      have hi' : i = 0 ∨ i = 1 ∨ i = 2 := by omega
      rcases hi' with h | h | h <;> subst h
      · simp [corrupt, buf]
      · simp [corrupt, buf, c1]
      · simp [corrupt, buf, c2])
    (by simp [corrupt, w2])
  refine ⟨c0, f1 k, ?_, f3 k⟩
  rw [r1, f2 k]
  rfl

/-- C4. Corruption of the checksum byte: for every device state, address `A` and
payload of `N` bytes with `0 ≤ N ≤ 255`, when after the block write only the cell at
`A + N` is changed, to any value `v` other than the one it holds, the block read returns
0 and still leaves `dst[0..N)` equal to the payload. -/
theorem C4_checksum_byte_corruption (d : Eeprom) (A : Nat) (src dst : Nat → Nat) (N v : Nat)
    (hN : N ≤ 255) (hsrc : ∀ i, i < N → src i < 256)
    (hv : v ≠ (memcpy_to_eeprom_with_checksum d A src N).cells ((A + N) % 65536)) :
    (memcpy_from_eeprom_with_checksum
      (corrupt (memcpy_to_eeprom_with_checksum d A src N) ((A + N) % 65536) v) dst A N).1 = 0 ∧
    ∀ i, i < N →
      (memcpy_from_eeprom_with_checksum
        (corrupt (memcpy_to_eeprom_with_checksum d A src N) ((A + N) % 65536) v) dst A N).2.1 i
        = src i := by
  obtain ⟨w1, w2, _⟩ := to_spec d A src N (by omega)
  obtain ⟨r1, r2, _, _⟩ := from_spec src
    (corrupt (memcpy_to_eeprom_with_checksum d A src N) ((A + N) % 65536) v) dst A N v
    (by
      intro i hi
      simp only [corrupt]
      rw [Function.update_noteq (by omega), w1 i hi, Nat.mod_eq_of_lt (hsrc i hi)])
    (by simp [corrupt])
  refine ⟨?_, r2⟩
  rw [r1, if_neg]
  rw [w2] at hv
  exact fun h => hv h.symm

/-- Witness of C4: the payload `[0x10, 0x20, 0x30]` at address 100, the cell at address
103 overwritten with 0. -/
theorem C4_checksum_byte_corruption_witness :
    (memcpy_from_eeprom_with_checksum
      (corrupt (memcpy_to_eeprom_with_checksum blank 100 (buf [0x10, 0x20, 0x30]) 3)
        ((100 + 3) % 65536) 0) (fun _ => 0) 100 3).1 = 0 ∧
    ∀ i, i < 3 →
      (memcpy_from_eeprom_with_checksum
        (corrupt (memcpy_to_eeprom_with_checksum blank 100 (buf [0x10, 0x20, 0x30]) 3)
          ((100 + 3) % 65536) 0) (fun _ => 0) 100 3).2.1 i = buf [0x10, 0x20, 0x30] i :=
  C4_checksum_byte_corruption blank 100 (buf [0x10, 0x20, 0x30]) (fun _ => 0) 3 0
    (by decide) (by decide) (by decide)

/-- C5. Block layout and frame: for every device state, address `A` and payload of `N`
bytes with `0 ≤ N ≤ 255`, after the block write the cell at `A + i` (mod 2^16) holds
`payload[i]` for every `i < N`, the cell at `A + N` holds the checksum the code
accumulates over the payload, and every cell outside the `N + 1` addresses `A .. A + N`
holds what it held before; a block read, of any size at any address, changes no
cell. -/
theorem C5_block_layout_and_frame (d : Eeprom) (A : Nat) (src : Nat → Nat) (N : Nat)
    (hN : N ≤ 255) (hsrc : ∀ i, i < N → src i < 256) :
    (∀ i, i < N → (memcpy_to_eeprom_with_checksum d A src N).cells ((A + i) % 65536) = src i) ∧
    (memcpy_to_eeprom_with_checksum d A src N).cells ((A + N) % 65536)
      = block_checksum src N ∧
    (∀ x, (∀ i, i ≤ N → x ≠ (A + i) % 65536) →
      (memcpy_to_eeprom_with_checksum d A src N).cells x = d.cells x) ∧
    (∀ (e : Eeprom) (dst : Nat → Nat) (B M : Nat),
      (memcpy_from_eeprom_with_checksum e dst B M).2.2.cells = e.cells) := by
  obtain ⟨w1, w2, w3⟩ := to_spec d A src N (by omega)
  refine ⟨?_, w2, w3, ?_⟩
  · intro i hi
    rw [w1 i hi, Nat.mod_eq_of_lt (hsrc i hi)]
  · intro e dst B M
    exact (from_spec (fun i => e.cells ((B + i) % 65536)) e dst B M _
      (fun _ _ => rfl) rfl).2.2.2

/-- Witness of C5: the payload `[0x10, 0x20, 0x30]` at address 100 of a blank device. -/
theorem C5_block_layout_and_frame_witness :
    (∀ i, i < 3 →
      (memcpy_to_eeprom_with_checksum blank 100 (buf [0x10, 0x20, 0x30]) 3).cells
        ((100 + i) % 65536) = buf [0x10, 0x20, 0x30] i) ∧
    (memcpy_to_eeprom_with_checksum blank 100 (buf [0x10, 0x20, 0x30]) 3).cells
      ((100 + 3) % 65536) = block_checksum (buf [0x10, 0x20, 0x30]) 3 ∧
    (∀ x, (∀ i, i ≤ 3 → x ≠ (100 + i) % 65536) →
      (memcpy_to_eeprom_with_checksum blank 100 (buf [0x10, 0x20, 0x30]) 3).cells x
        = blank.cells x) ∧
    (∀ (e : Eeprom) (dst : Nat → Nat) (B M : Nat),
      (memcpy_from_eeprom_with_checksum e dst B M).2.2.cells = e.cells) :=
  C5_block_layout_and_frame blank 100 (buf [0x10, 0x20, 0x30]) 3 (by decide) (by decide)

/-- C10. The read does not wait for a write in flight: on every device, right after
`eeprom_put_char` has started a write, `EECR` holds `0x02`, the program strobe `EEPE`
still set; `eeprom_get_char` called in that state sets the read strobe `EERE` all the
same, with `EEPE` still set, and returns the content of `EEDR`. -/
theorem C10_read_ignores_write_in_flight (d : Eeprom) (addr v : Nat) :
    (eeprom_put_char d addr v).EECR = 0x02 ∧
    Nat.testBit (eeprom_put_char d addr v).EECR EEPE = true ∧
    (eeprom_get_char (eeprom_put_char d addr v) addr).2.EECR = 0x03 ∧
    Nat.testBit (eeprom_get_char (eeprom_put_char d addr v) addr).2.EECR EERE = true ∧
    Nat.testBit (eeprom_get_char (eeprom_put_char d addr v) addr).2.EECR EEPE = true ∧
    (eeprom_get_char (eeprom_put_char d addr v) addr).1
      = (eeprom_get_char (eeprom_put_char d addr v) addr).2.EEDR := by
  have h1 : (eeprom_put_char d addr v).EECR = 0x02 := by
    simp [eeprom_put_char, program_strobe]
  have h2 : (eeprom_get_char (eeprom_put_char d addr v) addr).2.EECR = 0x03 := by
    simp only [eeprom_get_char, read_strobe, h1]
    decide
  refine ⟨h1, ?_, h2, ?_, ?_, ?_⟩
  · rw [h1]; decide
  · rw [h2]; decide
  · rw [h2]; decide
  · simp [eeprom_get_char, read_strobe]

/-! ## main.c : lemmas -/

theorem call_trace {W : Type} (E : Collaborators W) (c : Call) (m : Machine W) :
    (call E c m).trace = m.trace ++ [c] := rfl

theorem reset_cycle_trace {W : Type} (E : Collaborators W) (m : Machine W) :
    (reset_cycle E m).trace = m.trace ++ reset_order := by
  simp [reset_cycle, call, reset_order]

theorem startup_trace {W : Type} (cfg : Config) (E : Collaborators W) (m : Machine W) :
    (startup cfg E m).trace = m.trace ++
      [Call.serial_init, Call.settings_init, Call.stepper_init, Call.system_init] := by
  simp only [startup]
  split_ifs <;> simp [call, init]

/-- The calls of a run of the loop are whole reset cycles, at most one per iteration,
and one per iteration when the main loop returns every time. -/
theorem reset_loop_trace {W : Type} (E : Collaborators W) (n : Nat) (m : Machine W) :
    ∃ k, k ≤ n ∧
      (reset_loop E n m).trace = m.trace ++ (List.replicate k reset_order).flatten ∧
      ((∀ g, (E.protocol_main_loop g).isSome = true) → k = n) := by
  induction n generalizing m with
  | zero => exact ⟨0, le_refl _, by simp [reset_loop], fun _ => rfl⟩
  | succ n ih =>
    simp only [reset_loop]
    cases hp : E.protocol_main_loop (reset_cycle E m).g with
    | none =>
      refine ⟨1, by omega, ?_, ?_⟩
      · simp [reset_cycle_trace]
      · intro hall
        have := hall (reset_cycle E m).g
        rw [hp] at this
        simp at this
    | some g =>
      obtain ⟨k, hk, ht, hall⟩ := ih { reset_cycle E m with g := g }
      refine ⟨k + 1, by omega, ?_, fun h => by rw [hall h]⟩
      simp only [] at ht ⊢
      rw [ht, reset_cycle_trace, List.replicate_succ, List.flatten_cons, List.append_assoc]

/-- The state a reset cycle hands to `protocol_main_loop`: the eleven collaborator
calls of lines 264-278, first to last, applied to the state that the reset of the system
variables leaves. -/
theorem reset_cycle_state {W : Type} (E : Collaborators W) (m : Machine W) :
    (reset_cycle E m).g =
      E.effect Call.report_init_message (E.effect Call.gc_sync_position
        (E.effect Call.plan_sync_position (E.effect Call.st_reset (E.effect Call.plan_reset
        (E.effect Call.probe_init (E.effect Call.limits_init (E.effect Call.coolant_init
        (E.effect Call.spindle_init (E.effect Call.gc_init
        (E.effect Call.serial_reset_read_buffer
          (reset_system_variables m.g))))))))))) := rfl

theorem reset_cycle_keeps_mode {W : Type} (E : Collaborators W) (m : Machine W)
    (hE : ∀ c g, (E.effect c g).sys.state = g.sys.state) :
    (reset_cycle E m).g.sys.state = m.g.sys.state := by
  rw [reset_cycle_state]
  simp only [hE]
  rfl

theorem reset_loop_keeps_mode {W : Type} (E : Collaborators W) (n : Nat) (m : Machine W)
    (hE : ∀ c g, (E.effect c g).sys.state = g.sys.state)
    (hP : ∀ g g', E.protocol_main_loop g = some g' → g'.sys.state = g.sys.state) :
    (reset_loop E n m).g.sys.state = m.g.sys.state := by
  induction n generalizing m with
  | zero => rfl
  | succ n ih =>
    simp only [reset_loop]
    cases hp : E.protocol_main_loop (reset_cycle E m).g with
    | none => exact reset_cycle_keeps_mode E m hE
    | some g =>
      simp only []
      rw [ih, hP _ _ hp]
      exact reset_cycle_keeps_mode E m hE

/-! ## main.c : the claims -/

/-- C6. Reset ordering: for every behaviour of the collaborators and every state on
entry, one pass of the loop body makes exactly the calls `serial_reset_read_buffer`,
`gc_init`, `spindle_init`, `coolant_init`, `limits_init`, `probe_init`, `plan_reset`,
`st_reset`, `plan_sync_position`, `gc_sync_position`, `report_init_message`,
`protocol_main_loop`, in this order and each once; the body runs again from the top
when `protocol_main_loop` returns and no call follows when it does not; so the calls of
any run of the loop are whole repetitions of this sequence, one per iteration as long as
`protocol_main_loop` returns. -/
theorem C6_reset_ordering {W : Type} (E : Collaborators W) (m : Machine W) :
    (reset_cycle E m).trace = m.trace ++
      [Call.serial_reset_read_buffer, Call.gc_init, Call.spindle_init, Call.coolant_init,
       Call.limits_init, Call.probe_init, Call.plan_reset, Call.st_reset,
       Call.plan_sync_position, Call.gc_sync_position, Call.report_init_message,
       Call.protocol_main_loop] ∧
    reset_order.Nodup ∧
    (E.protocol_main_loop (reset_cycle E m).g = none →
      ∀ n, (reset_loop E (n + 1) m).trace = m.trace ++ reset_order) ∧
    (∀ g, E.protocol_main_loop (reset_cycle E m).g = some g →
      ∀ n, reset_loop E (n + 1) m = reset_loop E n { reset_cycle E m with g := g }) ∧
    (∀ n, ∃ k, k ≤ n ∧
      (reset_loop E n m).trace = m.trace ++ (List.replicate k reset_order).flatten ∧
      ((∀ g, (E.protocol_main_loop g).isSome = true) → k = n)) := by
  refine ⟨reset_cycle_trace E m, by decide, ?_, ?_, fun n => reset_loop_trace E n m⟩
  · intro hp n
    simp only [reset_loop, hp]
    exact reset_cycle_trace E m
  · intro g hp n
    simp only [reset_loop, hp]

/-- C7. Post-reset transient state: in every reset cycle, for every state on entry and
every behaviour of the collaborators, the state that the first subsystem call
`serial_reset_read_buffer` receives, and from which the calls of the cycle proceed, is
the one lines 250-261 leave: `sys.state` has its value on entry, the three overrides are
100, every other member of `sys`, every component of `sys_probe_position`,
`sys_probe_state` and the four `sys_rt_exec_*` flags are zero; `sys_position`, the
settings and the state of the collaborators are as on entry. So two entry states with
the same mode and the same array sizes leave the same transient state. Every iteration
of the loop starts with this cycle. -/
theorem C7_post_reset_state {W : Type} (E : Collaborators W) (m : Machine W) :
    (reset_cycle E m).g =
      E.effect Call.report_init_message (E.effect Call.gc_sync_position
        (E.effect Call.plan_sync_position (E.effect Call.st_reset (E.effect Call.plan_reset
        (E.effect Call.probe_init (E.effect Call.limits_init (E.effect Call.coolant_init
        (E.effect Call.spindle_init (E.effect Call.gc_init
        (E.effect Call.serial_reset_read_buffer
          ({ sys := { state := m.g.sys.state, f_override := 100, r_override := 100,
                       spindle_speed_ovr := 100,
                       others := List.replicate m.g.sys.others.length 0 },
              sys_position := m.g.sys_position,
              sys_probe_position := List.replicate m.g.sys_probe_position.length 0,
              sys_probe_state := 0,
              sys_rt_exec_state := 0,
              sys_rt_exec_alarm := 0,
              sys_rt_exec_motion_override := 0,
              sys_rt_exec_accessory_override := 0,
              settings_flags := m.g.settings_flags,
              ext := m.g.ext }))))))))))) ∧
    reset_system_variables m.g =
      { sys := { state := m.g.sys.state, f_override := 100, r_override := 100,
                 spindle_speed_ovr := 100,
                 others := List.replicate m.g.sys.others.length 0 },
        sys_position := m.g.sys_position,
        sys_probe_position := List.replicate m.g.sys_probe_position.length 0,
        sys_probe_state := 0,
        sys_rt_exec_state := 0,
        sys_rt_exec_alarm := 0,
        sys_rt_exec_motion_override := 0,
        sys_rt_exec_accessory_override := 0,
        settings_flags := m.g.settings_flags,
        ext := m.g.ext } ∧
    (∀ m2 : Machine W, m2.g.sys.state = m.g.sys.state →
      m2.g.sys.others.length = m.g.sys.others.length →
      m2.g.sys_probe_position.length = m.g.sys_probe_position.length →
      (reset_system_variables m2.g).sys = (reset_system_variables m.g).sys ∧
      (reset_system_variables m2.g).sys_probe_position
        = (reset_system_variables m.g).sys_probe_position ∧
      (reset_system_variables m2.g).sys_probe_state
        = (reset_system_variables m.g).sys_probe_state ∧
      (reset_system_variables m2.g).sys_rt_exec_state
        = (reset_system_variables m.g).sys_rt_exec_state ∧
      (reset_system_variables m2.g).sys_rt_exec_alarm
        = (reset_system_variables m.g).sys_rt_exec_alarm ∧
      (reset_system_variables m2.g).sys_rt_exec_motion_override
        = (reset_system_variables m.g).sys_rt_exec_motion_override ∧
      (reset_system_variables m2.g).sys_rt_exec_accessory_override
        = (reset_system_variables m.g).sys_rt_exec_accessory_override) ∧
    (∀ n, reset_loop E (n + 1) m =
      match E.protocol_main_loop (reset_cycle E m).g with
      | none => reset_cycle E m
      | some g => reset_loop E n { reset_cycle E m with g := g }) := by
  refine ⟨rfl, rfl, ?_, fun _ => rfl⟩
  intro m2 h1 h2 h3
  simp [reset_system_variables, memset_sys, h1, h2, h3]

/-- C8. Cold-start mode selection: when the two mode constants differ, the mode in
`sys.state` on first entry into the reset loop is `STATE_ALARM` if and only if
`FORCE_INITIALIZATION_ALARM` is configured, or `HOMING_INIT_LOCK` is configured and the
homing-enable flag is set in the settings as loaded; otherwise it is `STATE_IDLE`. The
selection is made before the loop, and the loop body does not make it again: in every
iteration the state handed to the first collaborator call has in `sys.state` the value
the iteration began with, the collaborator calls alone act on it afterwards, so the body
keeps the mode whenever the collaborators do, and so does every run of `main()`. -/
theorem C8_cold_start_mode {W : Type} (cfg : Config) (E : Collaborators W) (m0 : Machine W)
    (hne : cfg.STATE_ALARM ≠ cfg.STATE_IDLE) :
    ((startup cfg E m0).g.sys.state = cfg.STATE_ALARM ↔
      (cfg.FORCE_INITIALIZATION_ALARM = true ∨
        (cfg.HOMING_INIT_LOCK = true ∧
          bit_istrue (startup cfg E m0).g.settings_flags cfg.BITFLAG_HOMING_ENABLE = true))) ∧
    ((startup cfg E m0).g.sys.state ≠ cfg.STATE_ALARM →
      (startup cfg E m0).g.sys.state = cfg.STATE_IDLE) ∧
    (startup cfg E m0).g.settings_flags =
      (call E Call.system_init (call E Call.stepper_init (call E Call.settings_init
        (call E Call.serial_init (init E m0))))).g.settings_flags ∧
    (∀ n, main cfg E n m0 = reset_loop E n (startup cfg E m0)) ∧
    (∀ g : Globals W, (reset_system_variables g).sys.state = g.sys.state) ∧
    (∀ m : Machine W,
      (reset_system_variables m.g).sys.state = m.g.sys.state ∧
      (reset_cycle E m).g =
        E.effect Call.report_init_message (E.effect Call.gc_sync_position
          (E.effect Call.plan_sync_position (E.effect Call.st_reset (E.effect Call.plan_reset
          (E.effect Call.probe_init (E.effect Call.limits_init (E.effect Call.coolant_init
          (E.effect Call.spindle_init (E.effect Call.gc_init
          (E.effect Call.serial_reset_read_buffer
            (reset_system_variables m.g)))))))))))) ∧
    ((∀ c g, (E.effect c g).sys.state = g.sys.state) →
      ∀ m : Machine W, (reset_cycle E m).g.sys.state = m.g.sys.state) ∧
    ((∀ c g, (E.effect c g).sys.state = g.sys.state) →
      (∀ g g', E.protocol_main_loop g = some g' → g'.sys.state = g.sys.state) →
      ∀ n, (main cfg E n m0).g.sys.state = (startup cfg E m0).g.sys.state) := by
  have hne' : cfg.STATE_IDLE ≠ cfg.STATE_ALARM := fun h => hne h.symm
  refine ⟨?_, ?_, ?_, fun _ => rfl, fun _ => rfl, ?_, ?_, ?_⟩
  · simp only [startup]
    split_ifs <;> simp_all [call, init]
  · simp only [startup]
    split_ifs <;> simp_all [call, init]
  · simp only [startup]
    split_ifs <;> simp [call, init]
  · intro m
    exact ⟨rfl, reset_cycle_state E m⟩
  · intro hE m
    exact reset_cycle_keeps_mode E m hE
  · intro hE hP n
    exact reset_loop_keeps_mode E n (startup cfg E m0) hE hP

/-- Witness of C8: a build with `HOMING_INIT_LOCK` whose settings load finds homing
enabled. -/
theorem C8_cold_start_mode_witness :
    homing_config.STATE_ALARM ≠ homing_config.STATE_IDLE ∧
    (startup homing_config homing_collaborators power_up).g.sys.state
      = homing_config.STATE_ALARM :=
  ⟨by decide,
   ((C8_cold_start_mode homing_config homing_collaborators power_up (by decide)).1).2
     (Or.inr ⟨rfl, by decide⟩)⟩

/-- C9, as the claim has it, fails: in the run of `main()` up to the first entry into
`protocol_main_loop`, with collaborators that do nothing, the calls restricted to the
entry points the specification lists are not in the listed order, and `settings_init`
comes before `serial_reset_read_buffer`, not after it. -/
theorem C9_settings_load_not_in_loop :
    (main plain_config idle_collaborators 1 power_up).trace =
      [Call.serial_init, Call.settings_init, Call.stepper_init, Call.system_init,
       Call.serial_reset_read_buffer, Call.gc_init, Call.spindle_init, Call.coolant_init,
       Call.limits_init, Call.probe_init, Call.plan_reset, Call.st_reset,
       Call.plan_sync_position, Call.gc_sync_position, Call.report_init_message,
       Call.protocol_main_loop] ∧
    (main plain_config idle_collaborators 1 power_up).trace.filter
        (fun c => decide (c ∈ spec_call_order)) ≠ spec_call_order ∧
    ¬ ((main plain_config idle_collaborators 1 power_up).trace.indexOf
          Call.serial_reset_read_buffer
        < (main plain_config idle_collaborators 1 power_up).trace.indexOf
          Call.settings_init) := by
  decide

/-- C9, amended: for every configuration, every behaviour of the collaborators and every
initial state, the calls from process start to the first entry into
`protocol_main_loop` are `serial_init`, `settings_init`, `stepper_init`, `system_init`,
then `serial_reset_read_buffer`, `gc_init`, `spindle_init`, `coolant_init`,
`limits_init`, `probe_init`, `plan_reset`, `st_reset`, `plan_sync_position`,
`gc_sync_position`, `report_init_message`, `protocol_main_loop`; the settings load is
made before the serial-buffer reset and is not one of the calls of a reset cycle, so
that any run calls it once, followed by whole reset cycles. -/
theorem C9_call_order_amended {W : Type} (cfg : Config) (E : Collaborators W)
    (m0 : Machine W) :
    (main cfg E 1 m0).trace = m0.trace ++
      [Call.serial_init, Call.settings_init, Call.stepper_init, Call.system_init,
       Call.serial_reset_read_buffer, Call.gc_init, Call.spindle_init, Call.coolant_init,
       Call.limits_init, Call.probe_init, Call.plan_reset, Call.st_reset,
       Call.plan_sync_position, Call.gc_sync_position, Call.report_init_message,
       Call.protocol_main_loop] ∧
    Call.settings_init ∉ reset_order ∧
    (∀ n, ∃ k, k ≤ n ∧ (main cfg E n m0).trace = m0.trace ++
      [Call.serial_init, Call.settings_init, Call.stepper_init, Call.system_init] ++
      (List.replicate k reset_order).flatten) := by
  refine ⟨?_, by decide, ?_⟩
  · simp only [main, reset_loop]
    cases E.protocol_main_loop (reset_cycle E (startup cfg E m0)).g <;>
      simp [reset_cycle_trace, startup_trace, reset_order]
  · intro n
    obtain ⟨k, hk, ht, _⟩ := reset_loop_trace E n (startup cfg E m0)
    exact ⟨k, hk, by rw [main, ht, startup_trace]⟩

end Grbl
